import Mathlib

/-!
Verification of the pepystats data-shaping pipeline.

The development embeds the pure logic of `pepystats/api.py` and
`pepystats/cli.py`: JSON normalization of the pepy.tech v2 payload into
tidy `(date, downloads, label)` rows, the months-back time-window filter,
the client-side granularity resampler, and the markdown / csv / plain
renderers.  Dates are embedded as civil `(year, month, day)` triples with
the standard civil-from-days / days-from-civil conversions standing in for
pandas timestamps; pandas `DateOffset(months=k)` subtraction is embedded
as calendar-month index arithmetic with day-of-month clamping, and
`resample` is embedded as dense bucketing between the first and last
bucket key of each label group.
-/

namespace Pepystats

/-- A calendar day, the parse of an ISO `YYYY-MM-DD` string. -/
structure Date where
  y : Nat
  m : Nat
  d : Nat
deriving DecidableEq, Repr

/-- Days since 1970-01-01 (civil `days_from_civil` algorithm), the day
number of the pandas timestamp for midnight of this date. -/
def Date.toDays (dt : Date) : Int :=
  let y : Int := if dt.m ≤ 2 then (dt.y : Int) - 1 else (dt.y : Int)
  let m : Int := dt.m
  let d : Int := dt.d
  let era : Int := (if 0 ≤ y then y else y - 399) / 400
  let yoe : Int := y - era * 400
  let doy : Int := (153 * (if m > 2 then m - 3 else m + 9) + 2) / 5 + d - 1
  let doe : Int := yoe * 365 + yoe / 4 - yoe / 100 + doy
  era * 146097 + doe - 719468

/-- The calendar day of a day number (civil `civil_from_days`). -/
def Date.fromDays (z0 : Int) : Date :=
  let z : Int := z0 + 719468
  let era : Int := (if 0 ≤ z then z else z - 146096) / 146097
  let doe : Int := z - era * 146097
  let yoe : Int := (doe - doe / 1460 + doe / 36524 - doe / 146096) / 365
  let y : Int := yoe + era * 400
  let doy : Int := doe - (365 * yoe + yoe / 4 - yoe / 100)
  let mp : Int := (5 * doy + 2) / 153
  let d : Int := doy - (153 * mp + 2) / 5 + 1
  let m : Int := if mp < 10 then mp + 3 else mp - 9
  let y2 : Int := if m ≤ 2 then y + 1 else y
  ⟨y2.toNat, m.toNat, d.toNat⟩

/-- Calendar order on dates (the order pandas timestamps give parsed ISO
days): year, then month, then day. -/
def Date.le (a b : Date) : Prop :=
  a.y < b.y ∨ (a.y = b.y ∧ (a.m < b.m ∨ (a.m = b.m ∧ a.d ≤ b.d)))

instance : DecidableRel Date.le := fun a b => by
  unfold Date.le; exact inferInstance

instance : IsTotal Date Date.le := ⟨by intro a b; unfold Date.le; omega⟩

instance : IsTrans Date Date.le := ⟨by intro a b c; unfold Date.le; omega⟩

/-- Gregorian leap-year test. -/
def isLeap (y : Nat) : Bool := (y % 4 == 0 && y % 100 != 0) || y % 400 == 0

/-- Number of days in a month. -/
def daysInMonth (y m : Nat) : Nat :=
  if m = 2 then (if isLeap y then 29 else 28)
  else if m = 4 ∨ m = 6 ∨ m = 9 ∨ m = 11 then 30
  else 31

/-- `timestamp - DateOffset(months=k)` for a midnight timestamp: move the
month index back `k` months, clamping the day of month to the length of
the target month. -/
def Date.subMonths (dt : Date) (k : Nat) : Date :=
  let idx : Int := (dt.y : Int) * 12 + (dt.m : Int) - 1 - (k : Int)
  let y2 : Nat := (idx / 12).toNat
  let m2 : Nat := (idx % 12).toNat + 1
  ⟨y2, m2, min dt.d (daysInMonth y2 m2)⟩

/-- One tidy row of the DataFrames built by `get_overall` / `get_versions`:
columns `[date, downloads, label]`. -/
structure Row where
  date : Date
  downloads : Int
  label : String
deriving DecidableEq, Repr

/-- The value under one date key of the v2 `downloads` mapping: either a
per-version count mapping (counts possibly JSON `null`) or a bare scalar
count. -/
inductive VerVal where
  | map (m : List (String × Option Int))
  | scalar (c : Option Int)
deriving DecidableEq

/-- Python `int(v or 0)` on an optional count: `null` and missing count
as zero. -/
def intOrZero (c : Option Int) : Int := c.getD 0

/-- The total the `get_overall` loop computes for one date entry:
`sum(int(v or 0) for v in ver_map.values())` for a mapping, else
`int(ver_map or 0)`. -/
def verValTotal : VerVal → Int
  | .map m => (m.map (fun p => intOrZero p.2)).sum
  | .scalar c => intOrZero c

/-- The parsed JSON body of a v2 project response; only the `downloads`
field (a date-keyed mapping, possibly absent or null) is consumed. -/
structure V2Data where
  downloads : Option (List (Date × VerVal))

/-- `_parse_v2_downloads`: `data.get("downloads") or {}`. -/
def parse_v2_downloads (data : V2Data) : List (Date × VerVal) :=
  data.downloads.getD []

/-- An HTTP response as the pipeline observes it: a status code and the
JSON parse of the body (`none` when the body is not valid JSON). -/
structure HttpResponse where
  status : Nat
  body : Option V2Data

/-- The error taxonomy the fetch step can surface: the dedicated 401
error, `raise_for_status` errors carrying the status, and JSON decode
failures. -/
inductive ApiError where
  | unauthorized
  | httpError (status : Nat)
  | decodeError
deriving DecidableEq

/-- The shared fetch prologue of `get_overall` / `get_versions`: a 401
status raises the dedicated Unauthorized error, any other 4xx/5xx status
raises via `raise_for_status`, and otherwise the JSON body is parsed. -/
def fetchJson (r : HttpResponse) : Except ApiError V2Data :=
  if r.status = 401 then .error .unauthorized
  else if 400 ≤ r.status ∧ r.status < 600 then .error (.httpError r.status)
  else
    match r.body with
    | some d => .ok d
    | none => .error .decodeError

/-- `_trim_months`: identity on an empty frame or a non-positive months
window, otherwise keep rows whose date is on or after
`now.normalize() - DateOffset(months=months)`.  `today` is the
midnight-UTC wall clock the source reads from `pd.Timestamp.now`. -/
def trim_months (today : Date) (df : List Row) (months : Int) : List Row :=
  if df = [] ∨ months ≤ 0 then df
  else df.filter (fun r => Date.le (Date.subMonths today months.toNat) r.date)

/-- The first Saturday on or after day number `z` (day numbers, Monday of
week 0 being day −3): the right-closed, right-labelled `W-SAT` resample
bucket of `z`. -/
def weekSatKey (z : Int) : Int := z + (5 - (z + 3) % 7) % 7

/-- Month index of a date (months since year 0). -/
def monthKey (d : Date) : Int := (d.y : Int) * 12 + (d.m : Int) - 1

/-- The resample bucket key of a date: the closing Saturday's day number
for `weekly`, the month index for `monthly`, the year for `yearly`. -/
def keyOf (g : String) (d : Date) : Int :=
  if g = "weekly" then weekSatKey d.toDays
  else if g = "monthly" then monthKey d
  else (d.y : Int)

/-- Distance between consecutive bucket keys. -/
def stepOf (g : String) : Int := if g = "weekly" then 7 else 1

/-- The date a bucket key is reported as: the closing Saturday for
`weekly`, the month start for `monthly`, the year start for `yearly`. -/
def bucketDate (g : String) (k : Int) : Date :=
  if g = "weekly" then Date.fromDays k
  else if g = "monthly" then ⟨(k / 12).toNat, (k % 12).toNat + 1, 1⟩
  else ⟨k.toNat, 1, 1⟩

/-- Least element of a list of integers (0 on the empty list, which the
resampler never passes). -/
def listMin : List Int → Int
  | [] => 0
  | x :: xs => xs.foldl min x

/-- Greatest element of a list of integers. -/
def listMax : List Int → Int
  | [] => 0
  | x :: xs => xs.foldl max x

/-- Sum of the `downloads` column. -/
def sumDownloads (rs : List Row) : Int := (rs.map Row.downloads).sum

/-- `g["downloads"].resample(freq).sum()` for one label group: a dense run
of buckets from the first to the last occupied bucket key, each carrying
the sum of the group's rows falling in it (0 for an unoccupied bucket in
between). -/
def resampleLabel (g l : String) (grp : List Row) : List Row :=
  if grp = [] then []
  else
    let keys := grp.map (fun r => keyOf g r.date)
    let k0 := listMin keys
    let k1 := listMax keys
    let n := ((k1 - k0) / stepOf g).toNat + 1
    (List.range n).map (fun (i : Nat) =>
      let k := k0 + stepOf g * (i : Int)
      ⟨bucketDate g k, sumDownloads (grp.filter (fun r => keyOf g r.date = k)), l⟩)

/-- The sorted, deduplicated label set: the keys of `groupby("label")`
and the column index of `pivot_table`. -/
def labelsSorted (df : List Row) : List String :=
  List.insertionSort (fun a b : String => a ≤ b) (df.map Row.label).dedup

/-- The sorted, deduplicated date set: the row index of `pivot_table`
after `sort_index()`. -/
def datesSorted (df : List Row) : List Date :=
  List.insertionSort Date.le (df.map Row.date).dedup

/-- `_apply_granularity`: pass an empty frame or `daily` through; group by
label and resample for the three coarser calendar granularities; pass any
other granularity string through unchanged. -/
def apply_granularity (df : List Row) (g : String) : List Row :=
  if df = [] ∨ g = "daily" then df
  else if g = "weekly" ∨ g = "monthly" ∨ g = "yearly" then
    (labelsSorted df).flatMap (fun l => resampleLabel g l (df.filter (fun r => r.label = l)))
  else df

/-- The row list `get_overall` builds from the parsed payload: one row per
date entry, labelled `total`, holding that entry's summed count. -/
def overallRows (data : V2Data) : List Row :=
  (parse_v2_downloads data).map (fun e => ⟨e.1, verValTotal e.2, "total"⟩)

/-- `get_overall`, with the wall clock `today` made explicit: fetch, build
the total rows, trim to the months window, resample. -/
def get_overall (today : Date) (r : HttpResponse) (months : Int)
    (granularity : String) : Except ApiError (List Row) :=
  (fetchJson r).map (fun data =>
    apply_granularity (trim_months today (overallRows data) months) granularity)

/-- The row list `get_versions` builds: for each date entry that is a
per-version mapping, one row per version whose name passes the requested
filter (`if not want or ver in want`); non-mapping entries are skipped. -/
def versionRows (data : V2Data) (want : List String) : List Row :=
  (parse_v2_downloads data).flatMap (fun e =>
    match e.2 with
    | .scalar _ => []
    | .map m => m.filterMap (fun p =>
        if want = [] ∨ p.1 ∈ want then some ⟨e.1, intOrZero p.2, p.1⟩ else none))

/-- `get_versions`, with the wall clock `today` made explicit. -/
def get_versions (today : Date) (r : HttpResponse) (versions : List String)
    (months : Int) (granularity : String) : Except ApiError (List Row) :=
  (fetchJson r).map (fun data =>
    apply_granularity (trim_months today (versionRows data versions) months) granularity)

/-- The `downloads` values of the rows a `pivot_table` cell aggregates:
those of the rows matching the cell's date and label. -/
def cellGroup (df : List Row) (d : Date) (l : String) : List Int :=
  (df.filter (fun r => r.date = d ∧ r.label = l)).map Row.downloads

/-- One cell of `pivot_table(index="date", columns="label",
values="downloads", fill_value=0)`: the default `aggfunc` mean of the
matching rows, or the fill value 0 when no row matches. -/
def pivotCell (df : List Row) (d : Date) (l : String) : ℚ :=
  let g := cellGroup df d l
  if g = [] then 0 else (g.sum : ℚ) / (g.length : ℚ)

/-- The pivoted wide table shared by `to_markdown` and `to_csv`: one row
per distinct date in ascending order, one cell per distinct label. -/
def pivot_table (df : List Row) : List (Date × List ℚ) :=
  (datesSorted df).map (fun d => (d, (labelsSorted df).map (fun l => pivotCell df d l)))

/-- Two-digit zero padding. -/
def pad2 (n : Nat) : String := if n < 10 then "0" ++ toString n else toString n

/-- `strftime("%Y-%m-%d")`. -/
def dateStr (d : Date) : String :=
  toString d.y ++ "-" ++ pad2 d.m ++ "-" ++ pad2 d.d

/-- Serialization of the wide pivot with a given cell separator: a header
of `date` and the labels, then one line per pivot row. -/
def renderWide (sep : String) (df : List Row) : String :=
  let header := String.intercalate sep ("date" :: labelsSorted df)
  let body := (pivot_table df).map (fun row =>
    String.intercalate sep (dateStr row.1 :: row.2.map (fun q => toString q)))
  String.intercalate "\n" (header :: body)

/-- `to_markdown`: the `_no data_` literal on an empty frame, else the
pivoted table rendered with pipe separators. -/
def to_markdown (df : List Row) : String :=
  if df = [] then "_no data_" else renderWide " | " df

/-- `to_csv`: the empty string on an empty frame, else the pivoted table
rendered comma-separated with a trailing newline. -/
def to_csv (df : List Row) : String :=
  if df = [] then "" else renderWide "," df ++ "\n"

/-- Order of `df.sort_values(["label", "date"])`. -/
def rowLE (a b : Row) : Prop :=
  a.label < b.label ∨ (a.label = b.label ∧ Date.le a.date b.date)

instance : DecidableRel rowLE := fun a b => by
  unfold rowLE; exact inferInstance

/-- The plain-format dump: rows sorted by `(label, date)`, one line per
row. -/
def plainTable (df : List Row) : String :=
  String.intercalate "\n" ((List.insertionSort rowLE df).map (fun r =>
    dateStr r.date ++ " " ++ toString r.downloads ++ " " ++ r.label))

/-- `_print_df`: the text the CLI driver prints for a frame and a format
choice (`md`, `csv`, anything else being the plain default). -/
def print_df (df : List Row) (fmt : String) : String :=
  if fmt = "md" then to_markdown df
  else if fmt = "csv" then to_csv df
  else if df = [] then "no data"
  else plainTable df

/-! ## Theorems -/

/-- C7: the time-window filter with a zero or negative months value is the
identity on the row collection. -/
theorem trim_months_nonpositive_noop (today : Date) (df : List Row)
    (months : Int) (hm : months ≤ 0) : trim_months today df months = df := by
  unfold trim_months
  rw [if_pos (Or.inr hm)]

/-- Witness for C7 at `months = 0` and `months = -2` on a concrete row. -/
theorem trim_months_nonpositive_noop_witness :
    trim_months ⟨2025, 8, 10⟩ [⟨⟨2025, 6, 30⟩, 1, "total"⟩] 0
      = [⟨⟨2025, 6, 30⟩, 1, "total"⟩] ∧
    trim_months ⟨2025, 8, 10⟩ [⟨⟨2025, 6, 30⟩, 1, "total"⟩] (-2)
      = [⟨⟨2025, 6, 30⟩, 1, "total"⟩] :=
  ⟨trim_months_nonpositive_noop _ _ _ (by decide),
   trim_months_nonpositive_noop _ _ _ (by decide)⟩

/-- C8: rendering the empty row collection gives the `_no data_` literal in
markdown, the empty string in csv, and the `no data` line in the CLI
driver's plain format. -/
theorem render_empty_literals :
    to_markdown [] = "_no data_" ∧ to_csv [] = "" ∧
    print_df [] "plain" = "no data" :=
  ⟨rfl, rfl, rfl⟩

/-- C9: a granularity string outside `daily`/`weekly`/`monthly`/`yearly`
makes the resampler return the input collection unchanged instead of
signalling an error. -/
theorem apply_granularity_unknown_passthrough (df : List Row) (g : String)
    (h1 : g ≠ "daily") (h2 : g ≠ "weekly") (h3 : g ≠ "monthly")
    (h4 : g ≠ "yearly") : apply_granularity df g = df := by
  unfold apply_granularity
  by_cases hd : df = [] ∨ g = "daily"
  · rw [if_pos hd]
  · rw [if_neg hd, if_neg (by simp [h2, h3, h4])]

/-- Witness for C9 at the unknown granularity `hourly`. -/
theorem apply_granularity_unknown_passthrough_witness :
    apply_granularity [⟨⟨2025, 8, 3⟩, 1, "total"⟩] "hourly"
      = [⟨⟨2025, 8, 3⟩, 1, "total"⟩] :=
  apply_granularity_unknown_passthrough _ _ (by decide) (by decide)
    (by decide) (by decide)

/-- C5: a 401 response makes both `get_overall` and `get_versions` fail with
the dedicated Unauthorized error, every other 4xx/5xx status fails with the
generic HTTP error carrying that status, and the two error variants are
distinct. -/
theorem http_401_unauthorized_distinct (today : Date) (months : Int)
    (g : String) (vs : List String) (r : HttpResponse) :
    (r.status = 401 →
      get_overall today r months g = .error .unauthorized ∧
      get_versions today r vs months g = .error .unauthorized) ∧
    (400 ≤ r.status → r.status < 600 → r.status ≠ 401 →
      get_overall today r months g = .error (.httpError r.status) ∧
      get_versions today r vs months g = .error (.httpError r.status)) ∧
    (∀ s : Nat, ApiError.httpError s ≠ ApiError.unauthorized) := by
  refine ⟨?_, ?_, fun s h => by cases h⟩
  · intro h
    simp [get_overall, get_versions, fetchJson, h, Except.map]
  · intro h1 h2 h3
    simp [get_overall, get_versions, fetchJson, h1, h2, h3, Except.map]

/-- Witness for C5: a 401 response and a 404 response, with the two error
variants compared. -/
theorem http_401_unauthorized_distinct_witness :
    get_overall ⟨2025, 8, 10⟩ ⟨401, none⟩ 3 "daily" = .error .unauthorized ∧
    get_versions ⟨2025, 8, 10⟩ ⟨404, none⟩ ["1.0"] 3 "daily"
      = .error (.httpError 404) ∧
    ApiError.httpError 404 ≠ ApiError.unauthorized :=
  ⟨((http_401_unauthorized_distinct ⟨2025, 8, 10⟩ 3 "daily" ["1.0"]
      ⟨401, none⟩).1 rfl).1,
   ((http_401_unauthorized_distinct ⟨2025, 8, 10⟩ 3 "daily" ["1.0"]
      ⟨404, none⟩).2.1 (by decide) (by decide) (by decide)).2,
   (http_401_unauthorized_distinct ⟨2025, 8, 10⟩ 3 "daily" ["1.0"]
      ⟨404, none⟩).2.2 404⟩

/-- C6: with a positive months value the time-window filter keeps exactly
the rows whose date is on or after today minus that many calendar months
(inclusive, calendar-month subtraction with day clamping); in particular,
one month back from 2025-08-10 is 2025-07-10, one month back from
2025-03-31 clamps to 2025-02-28, and the filter at `months = 1` with today
2025-08-10 keeps exactly the rows dated 2025-07-10 and 2025-08-05. -/
theorem trim_months_calendar_window (today : Date) (months : Int)
    (df : List Row) (hm : 0 < months) :
    trim_months today df months
      = df.filter (fun r => Date.le (Date.subMonths today months.toNat) r.date) ∧
    Date.subMonths ⟨2025, 8, 10⟩ 1 = ⟨2025, 7, 10⟩ ∧
    Date.subMonths ⟨2025, 3, 31⟩ 1 = ⟨2025, 2, 28⟩ ∧
    trim_months ⟨2025, 8, 10⟩
      [⟨⟨2025, 6, 30⟩, 1, "total"⟩, ⟨⟨2025, 7, 10⟩, 2, "total"⟩,
       ⟨⟨2025, 8, 5⟩, 3, "total"⟩] 1
      = [⟨⟨2025, 7, 10⟩, 2, "total"⟩, ⟨⟨2025, 8, 5⟩, 3, "total"⟩] := by
  refine ⟨?_, by decide, by decide, by decide⟩
  unfold trim_months
  by_cases hd : df = []
  · subst hd; simp
  · rw [if_neg (by simp [hd]; omega)]

/-- C1: on a successful response, `get_overall` with a non-positive months
window and daily granularity returns exactly one `total`-labelled row per
date entry of the payload, holding that entry's total; on a per-version
mapping the total adds the counts version by version, a `null` count
contributing zero; and the output dates are exactly the payload's dates in
order. -/
theorem get_overall_total_rows (today : Date) (r : HttpResponse)
    (months : Int) (data : V2Data) (hm : months ≤ 0) (hok : r.status < 400)
    (hbody : r.body = some data) :
    get_overall today r months "daily"
      = .ok ((parse_v2_downloads data).map
          (fun e => ⟨e.1, verValTotal e.2, "total"⟩)) ∧
    (∀ (v : String) (vm : List (String × Option Int)),
        verValTotal (.map ((v, none) :: vm)) = verValTotal (.map vm)) ∧
    (∀ (v : String) (c : Int) (vm : List (String × Option Int)),
        verValTotal (.map ((v, some c) :: vm)) = c + verValTotal (.map vm)) ∧
    ((parse_v2_downloads data).map
        (fun e => Row.mk e.1 (verValTotal e.2) "total")).map Row.date
      = (parse_v2_downloads data).map Prod.fst := by
  have h401 : ¬ r.status = 401 := by omega
  have hge : ¬ (400 ≤ r.status ∧ r.status < 600) := by omega
  refine ⟨?_, ?_, ?_, ?_⟩
  · simp [get_overall, fetchJson, h401, hge, hbody, Except.map, trim_months,
      hm, apply_granularity, overallRows]
  · intro v vm; simp [verValTotal, intOrZero]
  · intro v c vm; simp [verValTotal, intOrZero]
  · simp [List.map_map, Function.comp_def]

/-- Witness for C1: a one-date payload with counts 10, 5 and a null count
sums to a single `total` row of 15. -/
theorem get_overall_total_rows_witness :
    get_overall ⟨2025, 8, 10⟩
      ⟨200, some ⟨some [(⟨2025, 8, 8⟩,
        .map [("2.3.0", some 10), ("2.2.0", some 5), ("2.1.0", none)])]⟩⟩
      0 "daily"
      = .ok [⟨⟨2025, 8, 8⟩, 15, "total"⟩] := by
  have h := (get_overall_total_rows ⟨2025, 8, 10⟩
    ⟨200, some ⟨some [(⟨2025, 8, 8⟩,
      .map [("2.3.0", some 10), ("2.2.0", some 5), ("2.1.0", none)])]⟩⟩
    0 ⟨some [(⟨2025, 8, 8⟩,
      .map [("2.3.0", some 10), ("2.2.0", some 5), ("2.1.0", none)])]⟩
    (by decide) (by decide) rfl).1
  rw [h]; rfl

/-- C4: with a non-empty requested version set, `get_versions` emits only
rows whose label is in the set, every emitted row comes from a
(date, version) pair present upstream, every upstream pair whose version
is in the set is emitted, a requested version absent upstream labels no
row, and a successful response yields a result rather than an error. -/
theorem get_versions_requested_only (data : V2Data) (want : List String)
    (hw : want ≠ []) :
    (∀ row ∈ versionRows data want, row.label ∈ want) ∧
    (∀ row ∈ versionRows data want, ∃ e ∈ parse_v2_downloads data, ∃ vm,
        e.2 = VerVal.map vm ∧ e.1 = row.date ∧
        ∃ c, (row.label, c) ∈ vm ∧ row.downloads = intOrZero c) ∧
    (∀ e ∈ parse_v2_downloads data, ∀ vm, e.2 = VerVal.map vm →
        ∀ p ∈ vm, p.1 ∈ want →
        (⟨e.1, intOrZero p.2, p.1⟩ : Row) ∈ versionRows data want) ∧
    (∀ v ∈ want,
        (∀ e ∈ parse_v2_downloads data, ∀ vm, e.2 = VerVal.map vm →
          ∀ c, (v, c) ∉ vm) →
        ∀ row ∈ versionRows data want, row.label ≠ v) ∧
    (∀ (today : Date) (r : HttpResponse) (months : Int),
        r.status < 400 → r.body = some data → months ≤ 0 →
        get_versions today r want months "daily" = .ok (versionRows data want)) := by
  have hmem : ∀ row ∈ versionRows data want, ∃ e ∈ parse_v2_downloads data,
      ∃ vm, e.2 = VerVal.map vm ∧ ∃ p ∈ vm,
        (p.1 ∈ want ∧ row = ⟨e.1, intOrZero p.2, p.1⟩) := by
    intro row hrow
    rw [versionRows, List.mem_flatMap] at hrow
    obtain ⟨e, he, hin⟩ := hrow
    rcases hv : e.2 with vm | c
    · rw [hv, List.mem_filterMap] at hin
      obtain ⟨p, hp, hsome⟩ := hin
      by_cases hcond : want = [] ∨ p.1 ∈ want
      · rw [if_pos hcond] at hsome
        refine ⟨e, he, vm, hv, p, hp, hcond.resolve_left hw, ?_⟩
        exact (Option.some.injEq _ _).mp hsome |>.symm
      · rw [if_neg hcond] at hsome; cases hsome
    · rw [hv] at hin; cases hin
  refine ⟨?_, ?_, ?_, ?_, ?_⟩
  · intro row hrow
    obtain ⟨e, _, vm, _, p, _, hpw, hrw⟩ := hmem row hrow
    rw [hrw]; exact hpw
  · intro row hrow
    obtain ⟨e, he, vm, hv, p, hp, _, hrw⟩ := hmem row hrow
    exact ⟨e, he, vm, hv, by rw [hrw], p.2, by rw [hrw]; exact hp, by rw [hrw]⟩
  · intro e he vm hv p hp hpw
    rw [versionRows, List.mem_flatMap]
    refine ⟨e, he, ?_⟩
    rw [hv, List.mem_filterMap]
    exact ⟨p, hp, by rw [if_pos (Or.inr hpw)]⟩
  · intro v _ habs row hrow hlab
    obtain ⟨e, he, vm, hv, p, hp, _, hrw⟩ := hmem row hrow
    have : p.1 = v := by rw [hrw] at hlab; exact hlab
    exact habs e he vm hv p.2 (by rw [← this]; exact hp)
  · intro today r months hok hbody hm
    have h401 : ¬ r.status = 401 := by omega
    have hge : ¬ (400 ≤ r.status ∧ r.status < 600) := by omega
    simp [get_versions, fetchJson, h401, hge, hbody, Except.map, trim_months,
      hm, apply_granularity]

/-- Witness for C4: requesting `1.0` and the absent `9.9` from a two-date
payload keeps exactly the `1.0` rows. -/
theorem get_versions_requested_only_witness :
    (∀ row ∈ versionRows
        ⟨some [(⟨2025, 7, 1⟩, .map [("1.0", some 3), ("2.0", some 9)]),
               (⟨2025, 7, 2⟩, .map [("1.0", some 4)])]⟩
        ["1.0", "9.9"], row.label ∈ ["1.0", "9.9"]) ∧
    (⟨⟨2025, 7, 1⟩, 3, "1.0"⟩ : Row) ∈ versionRows
        ⟨some [(⟨2025, 7, 1⟩, .map [("1.0", some 3), ("2.0", some 9)]),
               (⟨2025, 7, 2⟩, .map [("1.0", some 4)])]⟩
        ["1.0", "9.9"] :=
  ⟨(get_versions_requested_only
      ⟨some [(⟨2025, 7, 1⟩, .map [("1.0", some 3), ("2.0", some 9)]),
             (⟨2025, 7, 2⟩, .map [("1.0", some 4)])]⟩
      ["1.0", "9.9"] (by decide)).1,
   (get_versions_requested_only
      ⟨some [(⟨2025, 7, 1⟩, .map [("1.0", some 3), ("2.0", some 9)]),
             (⟨2025, 7, 2⟩, .map [("1.0", some 4)])]⟩
      ["1.0", "9.9"] (by decide)).2.2.1
     (⟨2025, 7, 1⟩, .map [("1.0", some 3), ("2.0", some 9)])
     (by decide) [("1.0", some 3), ("2.0", some 9)] rfl
     ("1.0", some 3) (by decide) (by decide)⟩

/-- Number of (date, version) pairs one payload entry contributes. -/
def entryPairCount : Date × VerVal → Nat
  | (_, .map m) => m.length
  | (_, .scalar _) => 0

/-- C10: with an empty requested version list, `get_versions` does not
filter: every (date, version) pair of every per-version mapping entry
yields its row, and the output has exactly one row per such pair. -/
theorem get_versions_nofilter_all (data : V2Data) :
    (∀ e ∈ parse_v2_downloads data, ∀ vm, e.2 = VerVal.map vm →
        ∀ p ∈ vm, (⟨e.1, intOrZero p.2, p.1⟩ : Row) ∈ versionRows data []) ∧
    (versionRows data []).length
      = ((parse_v2_downloads data).map entryPairCount).sum := by
  constructor
  · intro e he vm hv p hp
    rw [versionRows, List.mem_flatMap]
    refine ⟨e, he, ?_⟩
    rw [hv, List.mem_filterMap]
    exact ⟨p, hp, by rw [if_pos (Or.inl rfl)]⟩
  · rw [versionRows, List.length_flatMap]
    congr 1
    apply List.map_congr_left
    intro e _
    obtain ⟨d, v⟩ := e
    rcases v with vm | c <;> simp [entryPairCount, Function.comp]

/-- Witness for C10: an unfiltered request over a payload with three pairs
returns all three rows. -/
theorem get_versions_nofilter_all_witness :
    (⟨⟨2025, 7, 1⟩, 9, "2.0"⟩ : Row) ∈ versionRows
      ⟨some [(⟨2025, 7, 1⟩, .map [("1.0", some 3), ("2.0", some 9)]),
             (⟨2025, 7, 2⟩, .map [("1.0", some 4)])]⟩ [] ∧
    (versionRows
      ⟨some [(⟨2025, 7, 1⟩, .map [("1.0", some 3), ("2.0", some 9)]),
             (⟨2025, 7, 2⟩, .map [("1.0", some 4)])]⟩ []).length = 3 :=
  ⟨(get_versions_nofilter_all
      ⟨some [(⟨2025, 7, 1⟩, .map [("1.0", some 3), ("2.0", some 9)]),
             (⟨2025, 7, 2⟩, .map [("1.0", some 4)])]⟩).1
     (⟨2025, 7, 1⟩, .map [("1.0", some 3), ("2.0", some 9)]) (by decide)
     [("1.0", some 3), ("2.0", some 9)] rfl ("2.0", some 9) (by decide),
   by
    rw [(get_versions_nofilter_all
      ⟨some [(⟨2025, 7, 1⟩, .map [("1.0", some 3), ("2.0", some 9)]),
             (⟨2025, 7, 2⟩, .map [("1.0", some 4)])]⟩).2]
    rfl⟩

/-- The row index of the pivot is the sorted deduplicated date column. -/
lemma pivot_table_fst (df : List Row) :
    (pivot_table df).map Prod.fst = datesSorted df := by
  simp [pivot_table, List.map_map, Function.comp_def]

/-- Membership in the sorted deduplicated date column. -/
lemma mem_datesSorted (df : List Row) (d : Date) :
    d ∈ datesSorted df ↔ ∃ r ∈ df, r.date = d := by
  simp [datesSorted]

/-- Membership in the sorted deduplicated label column. -/
lemma mem_labelsSorted (df : List Row) (l : String) :
    l ∈ labelsSorted df ↔ ∃ r ∈ df, r.label = l := by
  simp [labelsSorted]

lemma foldl_min_le_init : ∀ (xs : List Int) (a : Int), xs.foldl min a ≤ a := by
  intro xs
  induction xs with
  | nil => intro a; exact le_refl a
  | cons x l ih => intro a; exact le_trans (ih (min a x)) (min_le_left a x)

lemma foldl_min_le_mem : ∀ (xs : List Int) (a x : Int), x ∈ xs → xs.foldl min a ≤ x := by
  intro xs
  induction xs with
  | nil => intro a x h; cases h
  | cons y l ih =>
    intro a x h
    rcases List.mem_cons.mp h with h | h
    · subst h; exact le_trans (foldl_min_le_init l (min a x)) (min_le_right a x)
    · exact ih (min a y) x h

lemma listMin_le_mem {xs : List Int} {x : Int} (h : x ∈ xs) : listMin xs ≤ x := by
  cases xs with
  | nil => cases h
  | cons a l =>
    rcases List.mem_cons.mp h with h | h
    · subst h; exact foldl_min_le_init l x
    · exact foldl_min_le_mem l a x h

lemma foldl_min_mem_or : ∀ (xs : List Int) (a : Int),
    xs.foldl min a = a ∨ xs.foldl min a ∈ xs := by
  intro xs
  induction xs with
  | nil => intro a; exact Or.inl rfl
  | cons x l ih =>
    intro a
    simp only [List.foldl_cons]
    rcases ih (min a x) with h | h
    · rcases min_choice a x with hm | hm
      · left; rw [h, hm]
      · right; rw [h, hm]; exact List.mem_cons_self x l
    · right; exact List.mem_cons_of_mem x h

lemma listMin_mem {xs : List Int} (h : xs ≠ []) : listMin xs ∈ xs := by
  cases xs with
  | nil => exact absurd rfl h
  | cons a l =>
    rcases foldl_min_mem_or l a with h2 | h2
    · rw [listMin, h2]; exact List.mem_cons_self a l
    · rw [listMin]; exact List.mem_cons_of_mem a h2

lemma le_foldl_max_init : ∀ (xs : List Int) (a : Int), a ≤ xs.foldl max a := by
  intro xs
  induction xs with
  | nil => intro a; exact le_refl a
  | cons x l ih => intro a; exact le_trans (le_max_left a x) (ih (max a x))

lemma le_foldl_max_mem : ∀ (xs : List Int) (a x : Int), x ∈ xs → x ≤ xs.foldl max a := by
  intro xs
  induction xs with
  | nil => intro a x h; cases h
  | cons y l ih =>
    intro a x h
    rcases List.mem_cons.mp h with h | h
    · subst h; exact le_trans (le_max_right a x) (le_foldl_max_init l (max a x))
    · exact ih (max a y) x h

lemma mem_le_listMax {xs : List Int} {x : Int} (h : x ∈ xs) : x ≤ listMax xs := by
  cases xs with
  | nil => cases h
  | cons a l =>
    rcases List.mem_cons.mp h with h | h
    · subst h; exact le_foldl_max_init l x
    · exact le_foldl_max_mem l a x h

/-- The dense bucket run of the resampler reaches every aligned key
between its first and last key. -/
lemma bucket_index_exists {s k0 k k1 : Int} (hs : 0 < s) (hdvd : s ∣ k - k0)
    (h0 : k0 ≤ k) (h1 : k ≤ k1) :
    ∃ j : Nat, j < ((k1 - k0) / s).toNat + 1 ∧ k0 + s * (j : Int) = k := by
  obtain ⟨c, hc⟩ := hdvd
  have hc0 : 0 ≤ c := by nlinarith
  refine ⟨c.toNat, ?_, ?_⟩
  · have hle : c ≤ (k1 - k0) / s := by
      rw [Int.le_ediv_iff_mul_le hs]
      nlinarith
    have h2 := Int.toNat_le_toNat hle
    omega
  · rw [Int.toNat_of_nonneg hc0]
    linarith

lemma stepOf_pos (g : String) : 0 < stepOf g := by
  unfold stepOf; split <;> norm_num

/-- Every weekly bucket key is a Saturday day number (2 modulo 7). -/
lemma weekSatKey_mod (z : Int) : weekSatKey z % 7 = 2 := by
  unfold weekSatKey; omega

/-- Bucket keys of the same granularity are congruent modulo the bucket
step. -/
lemma keyOf_sub_dvd (g : String)
    (hg : g = "weekly" ∨ g = "monthly" ∨ g = "yearly") (d1 d2 : Date) :
    stepOf g ∣ keyOf g d1 - keyOf g d2 := by
  rcases hg with h | h | h <;> subst h
  · have h1 := weekSatKey_mod d1.toDays
    have h2 := weekSatKey_mod d2.toDays
    show (7 : Int) ∣ weekSatKey d1.toDays - weekSatKey d2.toDays
    omega
  · exact one_dvd _
  · exact one_dvd _

/-- Filtering a label group by bucket key is filtering the whole frame by
key and label. -/
lemma filter_key_label (df : List Row) (l : String) (g : String) (k : Int) :
    (df.filter (fun r => r.label = l)).filter (fun r => keyOf g r.date = k)
      = df.filter (fun r => keyOf g r.date = k ∧ r.label = l) := by
  rw [List.filter_filter]
  simp only [decide_eq_true_eq, Bool.decide_and]

/-- The resampler's bucket run on a non-empty label group, written as an
explicit map over bucket indices. -/
lemma resampleLabel_eq (g l : String) (grp : List Row) (h : grp ≠ []) :
    resampleLabel g l grp
      = (List.range (((listMax (grp.map (fun r => keyOf g r.date))
            - listMin (grp.map (fun r => keyOf g r.date))) / stepOf g).toNat
              + 1)).map
          (fun (i : Nat) => ⟨bucketDate g (listMin (grp.map (fun r => keyOf g r.date))
              + stepOf g * (i : Int)),
            sumDownloads (grp.filter (fun r => keyOf g r.date
              = listMin (grp.map (fun r => keyOf g r.date))
                + stepOf g * (i : Int))),
            l⟩) := by
  unfold resampleLabel
  rw [if_neg h]

/-- Seven consecutive days (Sunday 2025-08-03 through Saturday 2025-08-09)
with downloads 1..7, one label. -/
def weekRun7 : List Row :=
  [⟨⟨2025, 8, 3⟩, 1, "total"⟩, ⟨⟨2025, 8, 4⟩, 2, "total"⟩,
   ⟨⟨2025, 8, 5⟩, 3, "total"⟩, ⟨⟨2025, 8, 6⟩, 4, "total"⟩,
   ⟨⟨2025, 8, 7⟩, 5, "total"⟩, ⟨⟨2025, 8, 8⟩, 6, "total"⟩,
   ⟨⟨2025, 8, 9⟩, 7, "total"⟩]

/-- C3 (amended): daily granularity is the identity; for the coarser
granularities every output row sits on a bucket date and carries the sum
of the input downloads of its label falling in that bucket; every aligned
bucket between a label's first and last occupied bucket appears in the
output (with sum 0 when no row contributes, rather than being omitted);
and the 7-consecutive-day run 1..7 resamples weekly to the single row
(2025-08-09, 28) while daily leaves it unchanged. -/
theorem apply_granularity_bucket_sums (df : List Row) (g : String)
    (hg : g = "weekly" ∨ g = "monthly" ∨ g = "yearly") :
    apply_granularity df "daily" = df ∧
    (∀ row ∈ apply_granularity df g, ∃ k : Int,
        row.date = bucketDate g k ∧
        row.downloads = sumDownloads (df.filter (fun r =>
          keyOf g r.date = k ∧ r.label = row.label))) ∧
    (∀ r1 ∈ df, ∀ i : Nat,
        (∃ r2 ∈ df, r2.label = r1.label ∧
            keyOf g r1.date + stepOf g * (i : Int) ≤ keyOf g r2.date) →
        (⟨bucketDate g (keyOf g r1.date + stepOf g * (i : Int)),
          sumDownloads (df.filter (fun r =>
            keyOf g r.date = keyOf g r1.date + stepOf g * (i : Int) ∧
            r.label = r1.label)),
          r1.label⟩ : Row) ∈ apply_granularity df g) ∧
    apply_granularity weekRun7 "weekly" = [⟨⟨2025, 8, 9⟩, 28, "total"⟩] ∧
    apply_granularity weekRun7 "daily" = weekRun7 := by
  have hgd : g ≠ "daily" := by rcases hg with h | h | h <;> subst h <;> decide
  have hunfold : df ≠ [] → apply_granularity df g
      = (labelsSorted df).flatMap
          (fun l => resampleLabel g l (df.filter (fun r => r.label = l))) := by
    intro hne
    unfold apply_granularity
    rw [if_neg (by simp [hne, hgd]), if_pos hg]
  refine ⟨by simp [apply_granularity], ?_, ?_, by decide, by decide⟩
  · intro row hrow
    by_cases hne : df = []
    · rw [hne] at hrow
      simp [apply_granularity] at hrow
    · rw [hunfold hne, List.mem_flatMap] at hrow
      obtain ⟨l, hl, hrl⟩ := hrow
      have hgrpne : df.filter (fun r => r.label = l) ≠ [] := by
        rw [mem_labelsSorted] at hl
        obtain ⟨r, hr, hrlab⟩ := hl
        exact List.ne_nil_of_mem (List.mem_filter.mpr ⟨hr, by simp [hrlab]⟩)
      rw [resampleLabel_eq g l _ hgrpne, List.mem_map] at hrl
      obtain ⟨i, hi, hrow_eq⟩ := hrl
      subst hrow_eq
      refine ⟨_, rfl, ?_⟩
      dsimp only
      rw [filter_key_label]
  · intro r1 hr1 i hex
    obtain ⟨r2, hr2, hr2lab, hle⟩ := hex
    have hne : df ≠ [] := List.ne_nil_of_mem hr1
    have hl : r1.label ∈ labelsSorted df :=
      (mem_labelsSorted df r1.label).mpr ⟨r1, hr1, rfl⟩
    have hr1g : r1 ∈ df.filter (fun r => r.label = r1.label) :=
      List.mem_filter.mpr ⟨hr1, by simp⟩
    have hr2g : r2 ∈ df.filter (fun r => r.label = r1.label) :=
      List.mem_filter.mpr ⟨hr2, by simp [hr2lab]⟩
    have hgrpne : df.filter (fun r => r.label = r1.label) ≠ [] :=
      List.ne_nil_of_mem hr1g
    set keys := (df.filter (fun r => r.label = r1.label)).map
      (fun r => keyOf g r.date) with hkeys
    have hk1 : keyOf g r1.date ∈ keys := List.mem_map.mpr ⟨r1, hr1g, rfl⟩
    have hk2 : keyOf g r2.date ∈ keys := List.mem_map.mpr ⟨r2, hr2g, rfl⟩
    have hkeysne : keys ≠ [] := List.ne_nil_of_mem hk1
    have hminmem := listMin_mem hkeysne
    rw [hkeys] at hminmem
    obtain ⟨rm, hrmg, hrmk⟩ := List.mem_map.mp hminmem
    have h0 : listMin keys ≤ keyOf g r1.date + stepOf g * (i : Int) := by
      have hs := stepOf_pos g
      have hnn : 0 ≤ stepOf g * (i : Int) :=
        mul_nonneg (le_of_lt hs) (Int.natCast_nonneg i)
      linarith [listMin_le_mem hk1]
    have h1 : keyOf g r1.date + stepOf g * (i : Int) ≤ listMax keys :=
      le_trans hle (mem_le_listMax hk2)
    have hdvd : stepOf g ∣
        (keyOf g r1.date + stepOf g * (i : Int)) - listMin keys := by
      have hrw : (keyOf g r1.date + stepOf g * (i : Int)) - listMin keys
          = (keyOf g r1.date - keyOf g rm.date) + stepOf g * (i : Int) := by
        rw [hrmk]; ring
      rw [hrw]
      exact dvd_add (keyOf_sub_dvd g hg r1.date rm.date) ⟨(i : Int), rfl⟩
    obtain ⟨j, hj, hjk⟩ := bucket_index_exists (stepOf_pos g) hdvd h0 h1
    rw [hunfold hne, List.mem_flatMap]
    refine ⟨r1.label, hl, ?_⟩
    rw [resampleLabel_eq g r1.label _ hgrpne]
    refine List.mem_map.mpr ⟨j, List.mem_range.mpr hj, ?_⟩
    dsimp only
    rw [← hkeys, hjk, filter_key_label]

/-- Witness for C3: the weekly and daily halves of the concrete
7-day-run conjuncts. -/
theorem apply_granularity_bucket_sums_witness :
    apply_granularity weekRun7 "weekly" = [⟨⟨2025, 8, 9⟩, 28, "total"⟩] ∧
    apply_granularity weekRun7 "daily" = weekRun7 :=
  ⟨(apply_granularity_bucket_sums weekRun7 "weekly" (Or.inl rfl)).2.2.2.1,
   (apply_granularity_bucket_sums weekRun7 "weekly" (Or.inl rfl)).2.2.2.2⟩

/-- Counterexample to C3 as stated: rows on the Saturdays 2025-08-02 and
2025-08-16 resampled weekly produce three buckets, the middle bucket
2025-08-09 appearing with downloads 0 although no input row falls in it —
the empty bucket is zero-filled, not omitted. -/
theorem weekly_sparse_bucket_cex :
    apply_granularity
        [⟨⟨2025, 8, 2⟩, 1, "total"⟩, ⟨⟨2025, 8, 16⟩, 2, "total"⟩] "weekly"
      = [⟨⟨2025, 8, 2⟩, 1, "total"⟩, ⟨⟨2025, 8, 9⟩, 0, "total"⟩,
         ⟨⟨2025, 8, 16⟩, 2, "total"⟩] ∧
    (∀ r ∈ [⟨⟨2025, 8, 2⟩, 1, "total"⟩, ⟨⟨2025, 8, 16⟩, 2, "total"⟩],
        keyOf "weekly" (Row.date r) ≠ (⟨2025, 8, 9⟩ : Date).toDays) := by
  decide

/-- C2 (amended): the pivot the markdown and csv renderers share has one
row per unique date in ascending order, one column per unique label in
ascending order, each cell holding the arithmetic mean (pandas
`pivot_table` default `aggfunc`) of the matching rows' downloads — hence
the plain value when the (date, label) pair is unique — and 0 where no row
matches; both renderers serialize exactly this pivot on non-empty input. -/
theorem pivot_table_mean_dense_sorted (df : List Row) (hne : df ≠ []) :
    ((pivot_table df).map Prod.fst).Sorted Date.le ∧
    ((pivot_table df).map Prod.fst).Nodup ∧
    (∀ d, d ∈ (pivot_table df).map Prod.fst ↔ ∃ r ∈ df, r.date = d) ∧
    (labelsSorted df).Sorted (fun a b : String => a ≤ b) ∧
    (labelsSorted df).Nodup ∧
    (∀ l, l ∈ labelsSorted df ↔ ∃ r ∈ df, r.label = l) ∧
    (∀ p ∈ pivot_table df,
        p.2 = (labelsSorted df).map (fun l => pivotCell df p.1 l)) ∧
    (∀ d l, (¬ ∃ r ∈ df, r.date = d ∧ r.label = l) → pivotCell df d l = 0) ∧
    (∀ d l, cellGroup df d l ≠ [] →
        pivotCell df d l * ((cellGroup df d l).length : ℚ)
          = ((cellGroup df d l).sum : ℚ)) ∧
    to_markdown df = renderWide " | " df ∧
    to_csv df = renderWide "," df ++ "\n" := by
  rw [pivot_table_fst]
  refine ⟨List.sorted_insertionSort _ _,
    ((List.perm_insertionSort _ _).nodup_iff).mpr (List.nodup_dedup _),
    mem_datesSorted df, List.sorted_insertionSort _ _,
    ((List.perm_insertionSort _ _).nodup_iff).mpr (List.nodup_dedup _),
    mem_labelsSorted df, ?_, ?_, ?_, by simp [to_markdown, hne],
    by simp [to_csv, hne]⟩
  · intro p hp
    rw [pivot_table, List.mem_map] at hp
    obtain ⟨d, _, hd⟩ := hp
    rw [← hd]
  · intro d l h
    have hcg : cellGroup df d l = [] := by
      simp only [cellGroup, List.map_eq_nil_iff, List.filter_eq_nil_iff,
        decide_eq_true_eq]
      intro r hr hrdl
      exact h ⟨r, hr, hrdl⟩
    simp [pivotCell, hcg]
  · intro d l h
    have hlen : ((cellGroup df d l).length : ℚ) ≠ 0 := by
      simpa [List.length_eq_zero] using h
    simp only [pivotCell, if_neg h]
    exact div_mul_cancel₀ _ hlen

/-- Witness for C2 on a concrete non-empty frame. -/
theorem pivot_table_mean_dense_sorted_witness :
    to_markdown [⟨⟨2025, 8, 8⟩, 1, "A"⟩]
      = renderWide " | " [⟨⟨2025, 8, 8⟩, 1, "A"⟩] ∧
    (pivotCell [⟨⟨2025, 8, 8⟩, 1, "A"⟩] ⟨2025, 8, 9⟩ "A" = 0) :=
  ⟨(pivot_table_mean_dense_sorted [⟨⟨2025, 8, 8⟩, 1, "A"⟩]
      (by decide)).2.2.2.2.2.2.2.2.2.1,
   (pivot_table_mean_dense_sorted [⟨⟨2025, 8, 8⟩, 1, "A"⟩]
      (by decide)).2.2.2.2.2.2.2.1 ⟨2025, 8, 9⟩ "A" (by decide)⟩

/-- Counterexample to C2 as stated: on a frame with two rows sharing the
(date, label) pair with downloads 1 and 3, the pivot cell is the mean 2,
not the sum 4. -/
theorem pivot_cell_mean_not_sum_cex :
    pivotCell [⟨⟨2025, 8, 8⟩, 1, "A"⟩, ⟨⟨2025, 8, 8⟩, 3, "A"⟩]
      ⟨2025, 8, 8⟩ "A" = 2 ∧
    (cellGroup [⟨⟨2025, 8, 8⟩, 1, "A"⟩, ⟨⟨2025, 8, 8⟩, 3, "A"⟩]
      ⟨2025, 8, 8⟩ "A").sum = 4 ∧
    (2 : ℚ) ≠ 4 := by
  have hcg : cellGroup [⟨⟨2025, 8, 8⟩, 1, "A"⟩, ⟨⟨2025, 8, 8⟩, 3, "A"⟩]
      ⟨2025, 8, 8⟩ "A" = [1, 3] := by decide
  refine ⟨?_, by rw [hcg]; rfl, by norm_num⟩
  unfold pivotCell
  rw [hcg, if_neg (by decide)]
  norm_num

/-- Witness for C6 at `months = 1`, today 2025-08-10. -/
theorem trim_months_calendar_window_witness :
    trim_months ⟨2025, 8, 10⟩
      [⟨⟨2025, 6, 30⟩, 1, "total"⟩, ⟨⟨2025, 7, 10⟩, 2, "total"⟩,
       ⟨⟨2025, 8, 5⟩, 3, "total"⟩] 1
      = [⟨⟨2025, 7, 10⟩, 2, "total"⟩, ⟨⟨2025, 8, 5⟩, 3, "total"⟩] :=
  (trim_months_calendar_window ⟨2025, 8, 10⟩ 1 [] (by decide)).2.2.2

end Pepystats
